import Mathlib

/-!
Verification development for the `comm-common` session & credential
exchange subsystem.  Definitions shallowly embed the Rust source under
`src/`; theorems settle the specification claims against them.
-/

namespace CommCommon

/-! ## Domain types (src/src/types.rs, module platform_token) -/

/-- `SessionDomain` (src/src/types.rs): the trust domain of a platform token. -/
inductive SessionDomain where
  | User
  | Guest
deriving DecidableEq, Repr

/-- `strum(serialize_all = "snake_case")` rendering of `SessionDomain`
(`ToString` derive in src/src/types.rs). -/
def SessionDomain.toStr : SessionDomain → String
  | .User => "user"
  | .Guest => "guest"

/-- `strum` `EnumString` parse of `SessionDomain` (inverse of the
snake_case rendering); unknown strings fail. -/
def SessionDomain.fromStr (s : String) : Option SessionDomain :=
  if s = "user" then some .User
  else if s = "guest" then some .Guest
  else none

/-- `GuestToken` (src/src/types.rs): identity assertion issued by the broker. -/
structure GuestToken where
  id : String
  domain : SessionDomain
  redirect_url : String
  name : String
  room_id : String
  instance' : String
deriving DecidableEq, Repr

/-- `Session` (src/src/session.rs). -/
structure Session where
  guest_token : GuestToken
  auth_result : Option String
  attr_id : String
  purpose : String
deriving DecidableEq, Repr

/-- `Session::new` (src/src/session.rs lines 26-33). -/
def Session.new (guest_token : GuestToken) (attr_id : String) (purpose : String) : Session :=
  { attr_id := attr_id
    purpose := purpose
    guest_token := guest_token
    auth_result := none }

/-! ## Errors (src/src/error.rs; the `Forbidden` and `Unauthorized` variants
are taken from their uses in src/src/auth.rs, whose matching revision of
error.rs is not part of the sources) -/

/-- A postgres error as the driver reports it: an optional SQLSTATE code
(src/src/session.rs inspects `e.code()`). -/
structure PgError where
  code : Option String
deriving DecidableEq, Repr

/-- SQLSTATE for `postgres::error::SqlState::UNIQUE_VIOLATION`. -/
def uniqueViolationCode : String := "23505"

/-- `Error` (src/src/error.rs), with `Forbidden` and `Unauthorized` as used
by src/src/auth.rs. -/
inductive Error where
  | NotFound
  | BadRequest (msg : String)
  | Jwe (msg : String)
  | Postgres (e : PgError)
  | Reqwest (msg : String)
  | Json (msg : String)
  | Parse (msg : String)
  | Template (msg : String)
  | Forbidden (msg : String)
  | Unauthorized (msg : String)
deriving DecidableEq, Repr

/-! ## Session store (src/src/session.rs)

The `session` table is modelled as a list of rows.  `rowid` models
physical row identity (postgres assigns it; it is not a table column and
no operation reads it): fresh ids come from `nextId`. -/

/-- One row of the `session` table (conceptual schema, spec §6;
columns exactly as the `INSERT` of `Session::persist` writes them). -/
structure Row where
  rowid : Nat
  session_id : String
  room_id : String
  domain : String
  redirect_url : String
  purpose : String
  name : String
  instance' : String
  attr_id : String
  auth_result : Option String
  last_activity : Nat
deriving DecidableEq, Repr

/-- The session table plus the supply of fresh physical row ids. -/
structure DBState where
  rows : List Row
  nextId : Nat
deriving DecidableEq, Repr

/-- The row written by the `INSERT` of `Session::persist`
(src/src/session.rs lines 41-65); `last_activity` is `now()`. -/
def Session.toRow (s : Session) (now : Nat) (rowid : Nat) : Row :=
  { rowid := rowid
    session_id := s.guest_token.id
    room_id := s.guest_token.room_id
    domain := s.guest_token.domain.toStr
    redirect_url := s.guest_token.redirect_url
    purpose := s.purpose
    name := s.guest_token.name
    instance' := s.guest_token.instance'
    attr_id := s.attr_id
    auth_result := s.auth_result
    last_activity := now }

/-- Modelled from the spec: the SQL schema (with its UNIQUE constraint) is
not under src/; spec §3 makes `attr_id` globally unique, so the store
signals `UNIQUE_VIOLATION` exactly when an inserted `attr_id` already
exists.  On success the statement reports one affected row. -/
def executeInsert (s : Session) (now : Nat) (db : DBState) :
    Except PgError (Nat × DBState) :=
  if db.rows.any (fun r => r.attr_id = s.attr_id) then
    .error { code := some uniqueViolationCode }
  else
    .ok (1, { rows := db.rows ++ [s.toRow now db.nextId], nextId := db.nextId + 1 })

/-- The `map_err` closure of `Session::persist` (src/src/session.rs lines
69-75): a unique violation becomes the distinguished `BadRequest`,
anything else is wrapped as a postgres error. -/
def persistMapErr (e : PgError) : Error :=
  if e.code = some uniqueViolationCode then
    .BadRequest "A session with that ID already exists"
  else
    .Postgres e

/-- `Session::persist` (src/src/session.rs lines 37-77): run the insert,
translating the store's uniqueness-violation signal.  Returns the
operation result together with the resulting table state. -/
def Session.persist (s : Session) (now : Nat) (db : DBState) :
    Except Error Unit × DBState :=
  match executeInsert s now db with
  | .error e => (.error (persistMapErr e), db)
  | .ok (_, db') => (.ok (), db')

/-- The row predicate of the conditional `UPDATE` in
`Session::register_auth_result`: `auth_result IS NULL AND attr_id = $2`. -/
def regMatches (attr_id : String) (r : Row) : Bool :=
  r.auth_result = none ∧ r.attr_id = attr_id

/-- Effect of the `UPDATE` statement of `Session::register_auth_result`
(src/src/session.rs lines 88-94) on the table: matching rows get the new
`auth_result` and `last_activity = now()`. -/
def registerUpdate (attr_id auth_result : String) (now : Nat) (rows : List Row) :
    List Row :=
  rows.map (fun r =>
    if regMatches attr_id r then
      { r with auth_result := some auth_result, last_activity := now }
    else r)

/-- Number of rows the conditional `UPDATE` matches (the statement's
affected-row count `n`). -/
def regMatchCount (attr_id : String) (db : DBState) : Nat :=
  (db.rows.filter (regMatches attr_id)).length

/-- `Session::register_auth_result` (src/src/session.rs lines 81-102):
one conditional update; `Ok` iff the affected-row count is exactly 1,
otherwise `NotFound`. -/
def Session.register_auth_result (attr_id auth_result : String) (now : Nat)
    (db : DBState) : Except Error Unit × DBState :=
  let n := regMatchCount attr_id db
  let db' : DBState := { db with rows := registerUpdate attr_id auth_result now db.rows }
  (if n = 1 then .ok () else .error .NotFound, db')

/-- Reconstruction of a `Session` from a returned row (src/src/session.rs
lines 130-146); fails with a parse error when `domain` is not a valid
`SessionDomain`. -/
def rowToSession (r : Row) : Except Error Session :=
  match SessionDomain.fromStr r.domain with
  | none => .error (.Parse r.domain)
  | some domain =>
    .ok { purpose := r.purpose
          guest_token :=
            { id := r.session_id
              room_id := r.room_id
              domain := domain
              redirect_url := r.redirect_url
              name := r.name
              instance' := r.instance' }
          attr_id := r.attr_id
          auth_result := r.auth_result }

/-- The `collect::<Result<Vec<Session>, Error>>` over the returned rows
(src/src/session.rs lines 129-147): parse each row in order, stopping at
the first failure. -/
def rowsToSessions : List Row → Except Error (List Session)
  | [] => .ok []
  | r :: rest =>
    match rowToSession r with
    | .error e => .error e
    | .ok s =>
      match rowsToSessions rest with
      | .error e => .error e
      | .ok ss => .ok (s :: ss)

/-- Effect of the `UPDATE ... SET last_activity = now() WHERE room_id = $1`
of `find_by_room_id` on the table: the room's rows get `last_activity`
refreshed. -/
def touchRows (room_id : String) (now : Nat) (rows : List Row) : List Row :=
  rows.map (fun r =>
    if r.room_id = room_id then { r with last_activity := now } else r)

/-- Result value of `Session::find_by_room_id`: the `RETURNING` rows (the
refreshed rows of the room), `NotFound` when there are none, otherwise the
parsed sessions. -/
def findResult (room_id : String) (now : Nat) (db : DBState) :
    Except Error (List Session) :=
  if ((touchRows room_id now db.rows).filter (fun r => r.room_id = room_id)).isEmpty then
    .error .NotFound
  else
    match rowsToSessions
        ((touchRows room_id now db.rows).filter (fun r => r.room_id = room_id)) with
    | .ok sessions => .ok sessions
    | .error e => .error e

/-- `Session::find_by_room_id` (src/src/session.rs lines 105-152): one
`UPDATE ... RETURNING` statement that refreshes `last_activity` of every
row of the room and returns those rows; `NotFound` when the room is
empty.  The statement's effect on the table stands regardless of the
result (it autocommits before the rows are parsed). -/
def Session.find_by_room_id (room_id : String) (now : Nat) (db : DBState) :
    Except Error (List Session) × DBState :=
  (findResult room_id now db, { db with rows := touchRows room_id now db.rows })

/-- `clean_db` (src/src/session.rs lines 156-165): delete every row whose
`last_activity` is older than one hour (`now() - INTERVAL '1 hour'`,
modelled in seconds). -/
def clean_db (now : Nat) (db : DBState) : DBState :=
  { db with rows := db.rows.filter (fun r => ¬ (r.last_activity + 3600 < now)) }

/-! ## Credentials (src/src/credentials.rs) -/

/-- `GuestAuthResult` as consumed by src/src/credentials.rs: a guest's
name, session purpose, and the opaque `auth_result` blob, if any. -/
structure GuestAuthResult where
  purpose : Option String
  name : Option String
  auth_result : Option String
deriving DecidableEq, Repr

/-- `Credentials` as consumed by src/src/credentials.rs: verified
attributes tagged with the guest's name and purpose; the attribute map is
modelled as an association list in its iteration order. -/
structure Credentials where
  name : Option String
  purpose : Option String
  attributes : List (String × String)
deriving DecidableEq, Repr

/-- `AuthResult` from `id_contact_proto` as consumed here: only its
optional `attributes` map is read. -/
structure AuthResult where
  status : String
  attributes : Option (List (String × String))
  session_url : Option String
deriving DecidableEq, Repr

/-- `collect_credentials` (src/src/credentials.rs lines 58-84).  The call
to `id_contact_jwt::dangerous_decrypt_auth_result_without_verifying_expiration`
with the config's validator and decrypter is the external codec boundary,
passed in here as `decrypt`.  A decrypt error aborts the whole collection
(the `?` operator); a guest with no blob, or whose decrypted payload has
no attributes, contributes nothing. -/
def collect_credentials (decrypt : String → Except Error AuthResult) :
    List GuestAuthResult → Except Error (List Credentials)
  | [] => .ok []
  | g :: rest =>
    match g.auth_result with
    | none => collect_credentials decrypt rest
    | some r =>
      match decrypt r with
      | .error e => .error e
      | .ok payload =>
        match payload.attributes with
        | none => collect_credentials decrypt rest
        | some attrs =>
          match collect_credentials decrypt rest with
          | .error e => .error e
          | .ok creds =>
            .ok ({ name := g.name, purpose := g.purpose, attributes := attrs } :: creds)

/-- Modelled from the spec: the Token Codec
(`id_contact_jwt::dangerous_decrypt_auth_result_without_verifying_expiration`)
is an external boundary, not under src/.  A bundle is represented by its
semantic content: the signed payload, the token's nominal expiry, and
whether the signature and the ciphertext are intact for the configured
keys. -/
structure Blob where
  payload : AuthResult
  expiry : Nat
  sig_ok : Bool
  enc_ok : Bool
deriving DecidableEq, Repr

/-- Modelled from the spec (§4.1): decrypt and check the signature of an
attribute bundle, deliberately without enforcing token expiry — the time
of the call is not consulted.  Fails on a tampered signature or a broken
ciphertext. -/
def dangerous_decrypt_auth_result_without_verifying_expiration
    (b : Blob) (_now : Nat) : Except Error AuthResult :=
  if b.sig_ok && b.enc_ok then .ok b.payload
  else .error (.Jwe "validation failed")

/-- `CredentialRenderType` (src/src/credentials.rs lines 87-91). -/
inductive CredentialRenderType where
  | Json
  | Html
  | HtmlPage
deriving DecidableEq, Repr

/-- `SortedCredentials` (src/src/credentials.rs lines 93-98). -/
structure SortedCredentials where
  purpose : Option String
  name : Option String
  attributes : List (String × String)
deriving DecidableEq, Repr

/-- The comparator of the `sort_by` in `From<Credentials> for
SortedCredentials`: order attribute pairs by key. -/
def attrLe (x y : String × String) : Prop := x.1 ≤ y.1

instance : DecidableRel attrLe := fun x y => inferInstanceAs (Decidable (x.1 ≤ y.1))

instance : IsTotal (String × String) attrLe := ⟨fun x y => le_total x.1 y.1⟩

instance : IsTrans (String × String) attrLe := ⟨fun _ _ _ h h' => le_trans h h'⟩

/-- `From<Credentials> for SortedCredentials` (src/src/credentials.rs lines
101-116): collect the attribute pairs and stable-sort them by key
(`sort_by(|x, y| x.0.cmp(&y.0))`, modelled by a stable sort under the same
comparator). -/
def SortedCredentials.fromCredentials (c : Credentials) : SortedCredentials :=
  { purpose := c.purpose
    name := c.name
    attributes := c.attributes.insertionSort attrLe }

/-- What `render_credentials` hands to the external rendering collaborator:
the JSON path serialises a value with `serde_json`, the HTML paths render
a Tera template from a context holding the sorted credentials. -/
inductive RenderInput where
  | json (credentials : List Credentials)
  | html (template : String) (sorted : List SortedCredentials)
deriving DecidableEq, Repr

/-- `render_credentials` (src/src/credentials.rs lines 145-178), embedded as
the data it hands to the rendering collaborator: the JSON render type
serialises the credentials as given, before any sorting; the two HTML
render types build the sorted credentials and hand them to the template
(`credentials.html` for the fragment, `base.html` for the page). -/
def render_credentials (credentials : List Credentials)
    (render_type : CredentialRenderType) : RenderInput :=
  match render_type with
  | .Json => .json credentials
  | .Html => .html "credentials.html" (credentials.map SortedCredentials.fromCredentials)
  | .HtmlPage => .html "base.html" (credentials.map SortedCredentials.fromCredentials)

/-- Bool-valued check that an attribute list is sorted by key. -/
def attrsSortedByKey : List (String × String) → Bool
  | [] => true
  | [_] => true
  | x :: y :: rest => (x.1 ≤ y.1 : Bool) && attrsSortedByKey (y :: rest)

/-- The claim's reading of `render_credentials`: every credential handed to
the rendering collaborator, whatever the render type, has its attributes
in key-sorted order. -/
def handsSortedOnly : RenderInput → Bool
  | .json cs => cs.all (fun c => attrsSortedByKey c.attributes)
  | .html _ scs => scs.all (fun sc => attrsSortedByKey sc.attributes)

/-! ## Auth provider adapter and login callback (src/src/auth.rs) -/

/-- `Translations` (src/src/templates.rs): a key-value table; `get` returns
the stored translation or the given fallback. -/
structure Translations where
  table : List (String × String)
deriving DecidableEq, Repr

/-- `Translations::get` (src/src/templates.rs lines 48-50). -/
def Translations.get (t : Translations) (key fallback : String) : String :=
  match t.table.lookup key with
  | some v => v
  | none => fallback

/-- `rocket::http::SameSite` as used by the cookie built in
`redirect_generic` (`SameSite::None`). -/
inductive SameSitePolicy where
  | Strict
  | Lax
  | NoneSite
deriving DecidableEq, Repr

/-- A cookie as added to the jar by `cookies.add_private` in
src/src/auth.rs. -/
structure CookieData where
  name : String
  value : String
  http_only : Bool
  secure : Bool
  same_site : SameSitePolicy
deriving DecidableEq, Repr

/-- `AuthProvider` (src/src/auth.rs lines 25-29). -/
inductive AuthProvider where
  | Google
  | Microsoft
deriving DecidableEq, Repr

/-- Outcome of the HTTP round-trip to a provider profile endpoint as seen by
`check_token_google` / `check_token_microsoft` (src/src/auth.rs): the
transport may fail, the body may fail to decode into the user-info struct,
or it decodes to a JSON object whose string fields are listed.  A field
absent from the object is rendered by `serde(default)` as the empty
string. -/
inductive ProviderResponse where
  | transportFailure (e : String)
  | decodeFailure (e : String)
  | body (fields : List (String × String))
deriving DecidableEq, Repr

/-- `check_token_google` (src/src/auth.rs lines 102-113): fetch the Google
userinfo endpoint, decode `sub` (defaulting to empty), and accept iff it
is non-empty; transport and decode failures propagate as errors. -/
def check_token_google (resp : ProviderResponse) : Except Error Bool :=
  match resp with
  | .transportFailure e => .error (.Reqwest e)
  | .decodeFailure e => .error (.Reqwest e)
  | .body fields => .ok (!((fields.lookup "sub").getD "").isEmpty)

/-- `check_token_microsoft` (src/src/auth.rs lines 139-150): fetch the
Microsoft graph `me` endpoint, decode `displayName` (defaulting to empty),
and accept iff it is non-empty. -/
def check_token_microsoft (resp : ProviderResponse) : Except Error Bool :=
  match resp with
  | .transportFailure e => .error (.Reqwest e)
  | .decodeFailure e => .error (.Reqwest e)
  | .body fields => .ok (!((fields.lookup "displayName").getD "").isEmpty)

/-- `check_token` (src/src/auth.rs lines 152-158): dispatch on the
configured provider (`config.auth_provider()`); with no provider
configured the check is `Forbidden`.  The provider round-trip outcome is
passed in as `resp`. -/
def check_token (provider : Option AuthProvider) (resp : ProviderResponse) :
    Except Error Bool :=
  match provider with
  | some .Google => check_token_google resp
  | some .Microsoft => check_token_microsoft resp
  | none => .error (.Forbidden "No auth provider configured")

/-- `redirect_generic` (src/src/auth.rs lines 160-185), with the outcome of
`check_token` on the exchanged access token passed in.  Returns the
cookies added to the jar together with the handler result: on a verified
token the bearer token is stored in an httpOnly, secure, SameSite=None
cookie named "token" and the fixed login-successful message is returned as
the body; on rejection no cookie is added and a `Forbidden`
insufficient-permissions error is returned; a `check_token` error
propagates. -/
def redirect_generic (checkResult : Except Error Bool) (access_token : String)
    (translations : Translations) : List CookieData × Except Error String :=
  match checkResult with
  | .error e => ([], .error e)
  | .ok true =>
    ([{ name := "token", value := access_token, http_only := true, secure := true,
        same_site := .NoneSite }],
     .ok (translations.get "login_successful"
        "You are now logged in. You can close this window"))
  | .ok false =>
    ([], .error (.Forbidden (translations.get "insufficient_permissions"
        "Insufficient permissions, try logging in with another account")))

/-- Shapes a provider-callback response can take: the code produces a plain
message body; the spec's words describe a redirect to a return URL. -/
inductive CallbackOutcome where
  | message (body : String)
  | redirectTo (url : String)
deriving DecidableEq, Repr

/-- `redirect_generic` with its body response read as a `CallbackOutcome`,
for comparison against the claimed behaviour. -/
def redirect_generic_outcome (checkResult : Except Error Bool)
    (access_token : String) (translations : Translations) :
    List CookieData × Except Error CallbackOutcome :=
  ((redirect_generic checkResult access_token translations).1,
   (redirect_generic checkResult access_token translations).2.map .message)

/-- The provider callback as the claim words it: on success store the token
cookie and return control to the return URL held by the `redirect` cookie,
defaulting to "/" when that cookie is absent; on rejection set no cookie
and return the insufficient-permissions outcome. -/
def redirect_generic_claimed (checkResult : Except Error Bool)
    (access_token : String) (redirect_cookie : Option String)
    (translations : Translations) : List CookieData × Except Error CallbackOutcome :=
  match checkResult with
  | .error e => ([], .error e)
  | .ok true =>
    ([{ name := "token", value := access_token, http_only := true, secure := true,
        same_site := .NoneSite }],
     .ok (.redirectTo (redirect_cookie.getD "/")))
  | .ok false =>
    ([], .error (.Forbidden (translations.get "insufficient_permissions"
        "Insufficient permissions, try logging in with another account")))

/-! ## Key ring / config (src/src/config.rs) -/

/-- `TokenSecret` (src/src/config.rs lines 110-118): newtype around a
platform-token signature secret. -/
structure TokenSecret where
  secret : String
deriving DecidableEq, Repr

/-- Rust's `Formatter::debug_struct` builder: the struct name plus the
fields added before `finish`. -/
structure DebugStructBuilder where
  name : String
  fields : List (String × String)

/-- `Formatter::debug_struct(name)`: a builder with no fields yet. -/
def debugStruct (name : String) : DebugStructBuilder :=
  { name := name, fields := [] }

/-- `DebugStruct::finish`: with no fields the output is the bare struct
name, otherwise the name followed by the rendered fields. -/
def DebugStructBuilder.finish (b : DebugStructBuilder) : String :=
  match b.fields with
  | [] => b.name
  | fs =>
    b.name ++ " \x7b " ++
      String.intercalate ", " (fs.map (fun p => p.1 ++ ": " ++ p.2)) ++ " \x7d"

/-- `impl Debug for TokenSecret` (src/src/config.rs lines 120-124):
`f.debug_struct("TokenSecret").finish()`; no field is ever added, so the
contained secret never reaches the formatter. -/
def TokenSecret.debugFmt (_s : TokenSecret) : String :=
  (debugStruct "TokenSecret").finish

/-! ## Statement helpers -/

/-- The per-guest contribution of the credential assembly, read off the
claim: a guest yields one credential, tagged with its name and purpose,
exactly when it has a blob whose decrypted payload carries attributes. -/
def guestCredential (decrypt : String → Except Error AuthResult)
    (g : GuestAuthResult) : Option Credentials :=
  match g.auth_result with
  | none => none
  | some r =>
    match decrypt r with
    | .error _ => none
    | .ok payload =>
      match payload.attributes with
      | none => none
      | some attrs => some { name := g.name, purpose := g.purpose, attributes := attrs }

/-- The rows of one room, in table order. -/
def roomRows (room : String) (db : DBState) : List Row :=
  db.rows.filter (fun r => r.room_id = room)

/-- One storage-level step: any of the four session lifecycle operations,
executed with arbitrary parameters (spec §5: the database is the sole
point of mutual exclusion, each operation one atomic statement). -/
inductive Step : DBState → DBState → Prop where
  | persist (s : Session) (now : Nat) (db : DBState) : Step db (s.persist now db).2
  | register (attr_id blob : String) (now : Nat) (db : DBState) :
      Step db (Session.register_auth_result attr_id blob now db).2
  | find (room : String) (now : Nat) (db : DBState) :
      Step db (Session.find_by_room_id room now db).2
  | clean (now : Nat) (db : DBState) : Step db (clean_db now db)

/-- Well-formedness of the table state: physical row ids are pairwise
distinct and below the fresh-id supply. -/
def WF (db : DBState) : Prop :=
  (∀ r ∈ db.rows, r.rowid < db.nextId) ∧ (db.rows.map Row.rowid).Nodup

/-- The `auth_result` of the physical row `i`: `none` when no such row
exists, `some a` when the row exists and holds `a`. -/
def authAt (db : DBState) (i : Nat) : Option (Option String) :=
  (db.rows.find? (fun r => r.rowid = i)).map Row.auth_result

/-! ## Concrete fixtures for witnesses and counterexamples -/

/-- A concrete guest token (values from the tests in src/src/session.rs). -/
def gtA : GuestToken :=
  { id := "123-456-789"
    domain := .Guest
    redirect_url := "idcontact.nl"
    name := "Test Id Contact"
    room_id := "987-654-321"
    instance' := "icontact.nl" }

/-- A concrete fresh session. -/
def sessA : Session := Session.new gtA "123465789" "test"

/-- The row of `sessA` as persisted at time 10 with physical id 0. -/
def rowA : Row := sessA.toRow 10 0

/-- A one-row table holding `sessA`. -/
def dbA : DBState := { rows := [rowA], nextId := 1 }

/-- The row of `sessA` after an authentication result was registered. -/
def rowReg : Row := { rowA with auth_result := some "res", last_activity := 12 }

/-- A one-row table whose single session already carries a result. -/
def dbReg : DBState := { rows := [rowReg], nextId := 1 }

/-- A credential whose attributes are not in key order. -/
def credUnsorted : Credentials :=
  { name := some "Henk Dieter"
    purpose := some "test_purpose"
    attributes := [("email", "hd@example.com"), ("age", "42")] }

/-- A concrete stand-in for the codec boundary: one known blob decrypts to
an attribute-carrying payload, a second known blob to a payload without
attributes, anything else fails. -/
def decryptA : String → Except Error AuthResult :=
  fun r =>
    if r = "blob-ok" then
      .ok { status := "SUCCESS"
            attributes := some [("age", "42"), ("email", "hd@example.com")]
            session_url := none }
    else if r = "blob-empty" then
      .ok { status := "SUCCESS", attributes := none, session_url := none }
    else
      .error (.Jwe "validation failed")

/-- A concrete intact attribute bundle whose nominal expiry is 100. -/
def blobA : Blob :=
  { payload :=
      { status := "SUCCESS"
        attributes := some [("age", "42")]
        session_url := none }
    expiry := 100
    sig_ok := true
    enc_ok := true }

/-- Concrete guest results: one with a decryptable blob, one with no blob,
one whose blob decrypts to a payload without attributes. -/
def garsA : List GuestAuthResult :=
  [ { purpose := some "test_purpose", name := some "Henk Dieter",
      auth_result := some "blob-ok" },
    { purpose := some "p2", name := some "n2", auth_result := none },
    { purpose := some "p3", name := some "n3", auth_result := some "blob-empty" } ]

/-- The single credential `garsA` yields under `decryptA`. -/
def credA : Credentials :=
  { name := some "Henk Dieter"
    purpose := some "test_purpose"
    attributes := [("age", "42"), ("email", "hd@example.com")] }

/-! ## Claim theorems -/

/-- C10: formatting a `TokenSecret` with the Debug formatter produces the
same fixed output — the struct name only — for every secret value, so the
contained secret cannot leak through debug logging. -/
theorem C10_token_secret_debug :
    (∀ s : TokenSecret, s.debugFmt = "TokenSecret") ∧
    (∀ s₁ s₂ : TokenSecret, s₁.debugFmt = s₂.debugFmt) :=
  ⟨fun _ => rfl, fun _ _ => rfl⟩

/-- C5: decrypting and verifying an attribute bundle never enforces token
expiry: for a bundle with intact signature and ciphertext, decryption
succeeds even at a call time past the bundle's nominal expiry (and the
outcome is independent of the call time altogether), while a bundle with
a tampered signature always fails verification regardless of expiry. -/
theorem C5_expiry_lenient (b : Blob) (now : Nat) :
    (b.sig_ok = true → b.enc_ok = true → b.expiry < now →
      dangerous_decrypt_auth_result_without_verifying_expiration b now = .ok b.payload) ∧
    (∀ now' : Nat,
      dangerous_decrypt_auth_result_without_verifying_expiration b now =
        dangerous_decrypt_auth_result_without_verifying_expiration b now') ∧
    (b.sig_ok = false →
      dangerous_decrypt_auth_result_without_verifying_expiration b now =
        .error (.Jwe "validation failed")) := by
  refine ⟨?_, fun _ => rfl, ?_⟩
  · intro h1 h2 _
    simp [dangerous_decrypt_auth_result_without_verifying_expiration, h1, h2]
  · intro h1
    simp [dangerous_decrypt_auth_result_without_verifying_expiration, h1]

/-- C5 witness: the intact bundle `blobA` (nominal expiry 100) decrypts
successfully at time 101, past its expiry. -/
theorem C5_expiry_lenient_witness :
    blobA.sig_ok = true ∧ blobA.enc_ok = true ∧ blobA.expiry < 101 ∧
    dangerous_decrypt_auth_result_without_verifying_expiration blobA 101 =
      .ok blobA.payload :=
  ⟨rfl, rfl, by decide, (C5_expiry_lenient blobA 101).1 rfl rfl (by decide)⟩

/-- C8: for a configured provider, `check_token` accepts exactly when the
provider-specific identity field — `sub` for Google, `displayName` for
Microsoft — is present and non-empty in the decoded profile response;
an empty or absent field is a rejection (`Ok(false)`), and transport or
decode failures propagate as errors, never coerced to a rejection. -/
theorem C8_check_token (fields : List (String × String)) (e : String) :
    (check_token (some .Google) (.body fields) = .ok true ↔
      ((fields.lookup "sub").getD "") ≠ "") ∧
    (check_token (some .Google) (.body fields) = .ok false ↔
      ((fields.lookup "sub").getD "") = "") ∧
    check_token (some .Google) (.transportFailure e) = .error (.Reqwest e) ∧
    check_token (some .Google) (.decodeFailure e) = .error (.Reqwest e) ∧
    (check_token (some .Microsoft) (.body fields) = .ok true ↔
      ((fields.lookup "displayName").getD "") ≠ "") ∧
    (check_token (some .Microsoft) (.body fields) = .ok false ↔
      ((fields.lookup "displayName").getD "") = "") ∧
    check_token (some .Microsoft) (.transportFailure e) = .error (.Reqwest e) ∧
    check_token (some .Microsoft) (.decodeFailure e) = .error (.Reqwest e) ∧
    check_token none (.body fields) = .error (.Forbidden "No auth provider configured") := by
  refine ⟨?_, ?_, rfl, rfl, ?_, ?_, rfl, rfl, rfl⟩
  · simp only [check_token, check_token_google, Except.ok.injEq, Bool.not_eq_true']
    rw [Bool.eq_false_iff]
    exact not_congr (String.isEmpty_iff _)
  · simp only [check_token, check_token_google, Except.ok.injEq, Bool.not_eq_false',
      String.isEmpty_iff]
  · simp only [check_token, check_token_microsoft, Except.ok.injEq, Bool.not_eq_true']
    rw [Bool.eq_false_iff]
    exact not_congr (String.isEmpty_iff _)
  · simp only [check_token, check_token_microsoft, Except.ok.injEq, Bool.not_eq_false',
      String.isEmpty_iff]

/-- C6 counterexample: on a verified token the callback handler returns the
fixed login-successful message body; it does not redirect to a return URL
taken from a `redirect` cookie ("/room" here), nor to the default "/" —
the claim's description of the success path is false on the code. -/
theorem C6_counterexample :
    redirect_generic_outcome (.ok true) "tok" { table := [] } ≠
      redirect_generic_claimed (.ok true) "tok" (some "/room") { table := [] } ∧
    redirect_generic_outcome (.ok true) "tok" { table := [] } ≠
      redirect_generic_claimed (.ok true) "tok" none { table := [] } := by
  constructor <;>
    · intro h
      have h2 := congrArg Prod.snd h
      simp [redirect_generic_outcome, redirect_generic, redirect_generic_claimed,
        Translations.get, Except.map] at h2

/-- C6 amended: on the provider callback, when `check_token` succeeds the
bearer token is stored in an httpOnly, secure cookie named "token" and the
handler returns the fixed login-successful message body (no redirect
target is consulted); when `check_token` rejects, no cookie is set and an
explicit Forbidden insufficient-permissions outcome is returned; an error
from `check_token` propagates with no cookie set. -/
theorem C6_redirect_generic (cr : Except Error Bool) (tok : String)
    (tr : Translations) :
    (∀ c ∈ (redirect_generic cr tok tr).1,
      c.name = "token" ∧ c.value = tok ∧ c.http_only = true ∧ c.secure = true) ∧
    ((redirect_generic cr tok tr).1 ≠ [] ↔ cr = .ok true) ∧
    (cr = .ok true →
      redirect_generic cr tok tr =
        ([{ name := "token", value := tok, http_only := true, secure := true,
            same_site := .NoneSite }],
         .ok (tr.get "login_successful"
            "You are now logged in. You can close this window"))) ∧
    (cr = .ok false →
      redirect_generic cr tok tr =
        ([], .error (.Forbidden (tr.get "insufficient_permissions"
            "Insufficient permissions, try logging in with another account")))) ∧
    (∀ e : Error, cr = .error e → redirect_generic cr tok tr = ([], .error e)) := by
  rcases cr with e | b
  · refine ⟨?_, ?_, ?_, ?_, ?_⟩ <;> simp [redirect_generic]
  · cases b <;>
      · refine ⟨?_, ?_, ?_, ?_, ?_⟩ <;> simp [redirect_generic]

/-- C6 amended witness: with a verified token "tok" and no translations the
handler stores the token cookie and returns the fixed message. -/
theorem C6_redirect_generic_witness :
    redirect_generic (.ok true) "tok" { table := [] } =
      ([{ name := "token", value := "tok", http_only := true, secure := true,
          same_site := .NoneSite }],
       .ok "You are now logged in. You can close this window") :=
  (C6_redirect_generic (.ok true) "tok" { table := [] }).2.2.1 rfl

/-- C3: `persist` inserts a new row; when a row with the same `attr_id`
already exists it fails with the distinguished `BadRequest` conflict
error translated from the store's uniqueness-violation signal, leaving
the table — and so the original row — unmodified; any storage error other
than a uniqueness violation is wrapped as a postgres error and
propagated. -/
theorem C3_persist_conflict (s : Session) (now : Nat) (db : DBState) :
    ((∃ r ∈ db.rows, r.attr_id = s.attr_id) →
      s.persist now db =
        (.error (.BadRequest "A session with that ID already exists"), db)) ∧
    ((∀ r ∈ db.rows, r.attr_id ≠ s.attr_id) →
      s.persist now db =
        (.ok (), { rows := db.rows ++ [s.toRow now db.nextId],
                   nextId := db.nextId + 1 })) ∧
    (∀ e : PgError, e.code ≠ some uniqueViolationCode → persistMapErr e = .Postgres e) := by
  refine ⟨?_, ?_, ?_⟩
  · rintro ⟨r, hr, hattr⟩
    have hany : db.rows.any (fun r => r.attr_id = s.attr_id) = true :=
      List.any_eq_true.2 ⟨r, hr, by simp [hattr]⟩
    simp [Session.persist, executeInsert, hany, persistMapErr]
  · intro h
    have hany : db.rows.any (fun r => r.attr_id = s.attr_id) = false := by
      simp only [List.any_eq_false, decide_eq_true_eq]
      exact h
    simp [Session.persist, executeInsert, hany]
  · intro e he
    simp [persistMapErr, he]

/-- C3 witness: re-persisting a session whose `attr_id` is already in the
table yields the conflict `BadRequest` and leaves the table unchanged. -/
theorem C3_persist_conflict_witness :
    sessA.persist 11 dbA =
      (.error (.BadRequest "A session with that ID already exists"), dbA) :=
  (C3_persist_conflict sessA 11 dbA).1 ⟨rowA, by simp [dbA], rfl⟩

/-- C4: `collect_credentials` emits exactly one credential record — tagged
with the guest's name and purpose — for each guest result whose blob is
present and decrypts to a payload carrying attributes; guests with no
blob, and guests whose blob decrypts to a payload without attributes, are
silently omitted and produce no error (here: whenever every present blob
decrypts successfully, the whole collection succeeds). -/
theorem C4_collect_credentials (decrypt : String → Except Error AuthResult)
    (gars : List GuestAuthResult)
    (hdec : ∀ g ∈ gars, ∀ r, g.auth_result = some r → ∃ p, decrypt r = .ok p) :
    collect_credentials decrypt gars = .ok (gars.filterMap (guestCredential decrypt)) := by
  induction gars with
  | nil => rfl
  | cons g rest ih =>
    have hrest : ∀ g' ∈ rest, ∀ r, g'.auth_result = some r → ∃ p, decrypt r = .ok p :=
      fun g' hg' => hdec g' (List.mem_cons_of_mem _ hg')
    cases hg : g.auth_result with
    | none =>
      simp only [collect_credentials, hg, List.filterMap_cons, guestCredential]
      exact ih hrest
    | some r =>
      obtain ⟨p, hp⟩ := hdec g (List.mem_cons_self _ _) r hg
      cases hattrs : p.attributes with
      | none =>
        simp only [collect_credentials, hg, hp, hattrs, List.filterMap_cons, guestCredential]
        exact ih hrest
      | some attrs =>
        simp only [collect_credentials, hg, hp, hattrs, List.filterMap_cons, guestCredential,
          ih hrest]

/-- C4 witness: of the three guests in `garsA`, only the one carrying the
decryptable attribute blob yields a credential, tagged with its name and
purpose; the blobless guest and the attribute-less guest are dropped with
no error. -/
theorem C4_collect_credentials_witness :
    collect_credentials decryptA garsA = .ok [credA] := by
  have h := C4_collect_credentials decryptA garsA (by
    intro g hg r hr
    have hg' : g = garsA[0] ∨ g = garsA[1] ∨ g = garsA[2] := by
      simpa [garsA] using hg
    rcases hg' with h | h | h <;> subst h <;> simp [garsA] at hr <;> subst hr
    · exact ⟨_, rfl⟩
    · exact ⟨_, rfl⟩)
  rw [h]
  rfl

/-- C1: `register_auth_result` performs one conditional update that sets
`auth_result` and refreshes `last_activity` exactly on the rows where
`auth_result` is null and the `attr_id` matches; it succeeds iff exactly
one row matched and reports `NotFound` on zero matches — both when no row
with that `attr_id` exists and when the row's result is already set — so
a caller cannot distinguish the two. -/
theorem C1_register_auth_result (a blob : String) (now : Nat) (db : DBState) :
    ((Session.register_auth_result a blob now db).1 = .ok () ↔
      regMatchCount a db = 1) ∧
    ((Session.register_auth_result a blob now db).1 = .error .NotFound ↔
      regMatchCount a db ≠ 1) ∧
    ((Session.register_auth_result a blob now db).2.rows =
      db.rows.map (fun r =>
        if regMatches a r then { r with auth_result := some blob, last_activity := now }
        else r)) ∧
    ((∀ r ∈ db.rows, r.attr_id ≠ a) →
      (Session.register_auth_result a blob now db).1 = .error .NotFound) ∧
    ((∀ r ∈ db.rows, r.attr_id = a → r.auth_result ≠ none) →
      (Session.register_auth_result a blob now db).1 = .error .NotFound) := by
  have hres : (Session.register_auth_result a blob now db).1 =
      (if regMatchCount a db = 1 then .ok () else .error .NotFound) := rfl
  by_cases h : regMatchCount a db = 1
  · refine ⟨?_, ?_, rfl, ?_, ?_⟩
    · simp [hres, h]
    · simp [hres, h]
    · intro hnone
      exfalso
      have h0 : regMatchCount a db = 0 := by
        simp only [regMatchCount, List.length_eq_zero, List.filter_eq_nil_iff]
        intro r hr
        simp [regMatches, hnone r hr]
      omega
    · intro hsome
      exfalso
      have h0 : regMatchCount a db = 0 := by
        simp only [regMatchCount, List.length_eq_zero, List.filter_eq_nil_iff]
        intro r hr
        simp only [regMatches, decide_eq_true_eq, not_and]
        intro hnone hattr
        exact hsome r hr hattr hnone
      omega
  · refine ⟨?_, ?_, rfl, ?_, ?_⟩
    · simp [hres, h]
    · simp [hres, h]
    · intro _
      simp [hres, h]
    · intro _
      simp [hres, h]

/-- C1 witness: registering against a session whose result is already set
reports `NotFound` — the same outcome as for an unknown `attr_id`. -/
theorem C1_register_auth_result_witness :
    (Session.register_auth_result "123465789" "res2" 13 dbReg).1 = .error .NotFound :=
  (C1_register_auth_result "123465789" "res2" 13 dbReg).2.2.2.2 (by
    intro r hr _
    have hr' : r = rowReg := by simpa [dbReg] using hr
    subst hr'
    simp [rowReg, rowA, sessA, Session.new, Session.toRow])

/-- C7 counterexample: the JSON render type hands the credentials to the
serialiser exactly as given, before any sorting, so on a credential whose
attributes are out of key order the rendering collaborator receives an
unsorted shape. -/
theorem C7_counterexample :
    handsSortedOnly (render_credentials [credUnsorted] .Json) = false ∧
    render_credentials [credUnsorted] .Json = .json [credUnsorted] := by
  constructor
  · have hble : ¬ (("email" : String) ≤ "age") := by
      rw [String.le_iff_toList_le]
      decide
    simp [handsSortedOnly, render_credentials, attrsSortedByKey, credUnsorted, hble]
  · rfl

/-- C7 amended: the sorting transform orders every credential's attributes
lexicographically by key — the result is a key-sorted permutation of the
original attributes, with name and purpose untouched — and this sorted
form is what the rendering collaborator receives for the HTML fragment
and HTML page render types; the JSON render type hands the credentials
over unsorted, exactly as given. -/
theorem C7_sorted_rendering (c : Credentials) (cs : List Credentials) :
    List.Sorted attrLe (SortedCredentials.fromCredentials c).attributes ∧
    (SortedCredentials.fromCredentials c).attributes.Perm c.attributes ∧
    (SortedCredentials.fromCredentials c).name = c.name ∧
    (SortedCredentials.fromCredentials c).purpose = c.purpose ∧
    render_credentials cs .Html =
      .html "credentials.html" (cs.map SortedCredentials.fromCredentials) ∧
    render_credentials cs .HtmlPage =
      .html "base.html" (cs.map SortedCredentials.fromCredentials) ∧
    render_credentials cs .Json = .json cs :=
  ⟨List.sorted_insertionSort attrLe c.attributes,
   List.perm_insertionSort attrLe c.attributes, rfl, rfl, rfl, rfl, rfl⟩

/-- Refreshing `last_activity` does not change how a row parses back into a
session. -/
theorem rowToSession_touch (r : Row) (t : Nat) :
    rowToSession { r with last_activity := t } = rowToSession r := rfl

/-- Parsing a list of rows is unaffected by refreshing their
`last_activity`. -/
theorem rowsToSessions_map_touch (now : Nat) (l : List Row) :
    rowsToSessions (l.map (fun r => { r with last_activity := now })) =
      rowsToSessions l := by
  induction l with
  | nil => rfl
  | cons r l ih => simp [rowsToSessions, rowToSession_touch, ih]

/-- Rows whose `domain` column parses all convert, yielding one session per
row. -/
theorem rowsToSessions_ok (l : List Row)
    (h : ∀ r ∈ l, (SessionDomain.fromStr r.domain).isSome) :
    ∃ ss : List Session, rowsToSessions l = .ok ss ∧ ss.length = l.length := by
  induction l with
  | nil => exact ⟨[], rfl, rfl⟩
  | cons r l ih =>
    obtain ⟨ss, hss, hlen⟩ := ih (fun r' hr' => h r' (List.mem_cons_of_mem _ hr'))
    have hr := h r (List.mem_cons_self _ _)
    cases hd : SessionDomain.fromStr r.domain with
    | none => rw [hd] at hr; simp at hr
    | some d =>
      refine ⟨{ purpose := r.purpose
                guest_token :=
                  { id := r.session_id
                    room_id := r.room_id
                    domain := d
                    redirect_url := r.redirect_url
                    name := r.name
                    instance' := r.instance' }
                attr_id := r.attr_id
                auth_result := r.auth_result } :: ss, ?_, by simp [hlen]⟩
      simp [rowsToSessions, rowToSession, hd, hss]


/-- The rows returned by the `UPDATE ... RETURNING` of `find_by_room_id`
are exactly the room's rows with their `last_activity` refreshed. -/
theorem returned_rows_eq (room : String) (now : Nat) (db : DBState) :
    (touchRows room now db.rows).filter (fun r => r.room_id = room) =
      (roomRows room db).map (fun r => { r with last_activity := now }) := by
  unfold touchRows
  rw [List.filter_map]
  have hpf : ((fun r : Row => decide (r.room_id = room)) ∘ (fun r =>
      if r.room_id = room then { r with last_activity := now } else r)) =
      (fun r : Row => decide (r.room_id = room)) := by
    funext r
    by_cases h : r.room_id = room <;> simp [h]
  rw [hpf]
  apply List.map_congr_left
  intro r hr
  have hroom : r.room_id = room := by simpa using (List.mem_filter.mp hr).2
  simp [hroom]

/-- C9: `find_by_room_id` refreshes `last_activity` of every session of the
room in the same single statement that returns them; it returns one
session per stored row of the room (parsed back from the row), and fails
with `NotFound` exactly when the room has no sessions. -/
theorem C9_find_by_room_id (room : String) (now : Nat) (db : DBState)
    (hdom : ∀ r ∈ db.rows, r.room_id = room → (SessionDomain.fromStr r.domain).isSome) :
    ((Session.find_by_room_id room now db).2.rows =
      db.rows.map (fun r =>
        if r.room_id = room then { r with last_activity := now } else r)) ∧
    (∀ r ∈ (Session.find_by_room_id room now db).2.rows,
      r.room_id = room → r.last_activity = now) ∧
    ((Session.find_by_room_id room now db).1 = .error .NotFound ↔
      roomRows room db = []) ∧
    (roomRows room db ≠ [] →
      ∃ ss : List Session,
        (Session.find_by_room_id room now db).1 = .ok ss ∧
        ss.length = (roomRows room db).length ∧
        rowsToSessions (roomRows room db) = .ok ss) := by
  have hsnd : (Session.find_by_room_id room now db).2.rows =
      touchRows room now db.rows := rfl
  have hfst : (Session.find_by_room_id room now db).1 = findResult room now db := rfl
  have hsecond : ∀ r ∈ (Session.find_by_room_id room now db).2.rows,
      r.room_id = room → r.last_activity = now := by
    intro r hr hroom
    rw [hsnd] at hr
    obtain ⟨r₀, hr₀, hfr⟩ := List.mem_map.mp hr
    by_cases h : r₀.room_id = room
    · rw [← hfr]
      simp [h]
    · rw [← hfr] at hroom
      simp [h] at hroom
  by_cases hempty : roomRows room db = []
  · have hfilter : (touchRows room now db.rows).filter (fun r => r.room_id = room) = [] := by
      rw [returned_rows_eq, hempty]
      rfl
    have hcond :
        ((touchRows room now db.rows).filter (fun r => r.room_id = room)).isEmpty = true := by
      rw [hfilter]
      rfl
    have hval : findResult room now db = .error .NotFound := by
      unfold findResult
      rw [if_pos hcond]
    refine ⟨hsnd, hsecond, ?_, ?_⟩
    · rw [hfst, hval]
      simp [hempty]
    · intro h
      exact absurd hempty h
  · have hconv : rowsToSessions
        ((touchRows room now db.rows).filter (fun r => r.room_id = room)) =
        rowsToSessions (roomRows room db) := by
      rw [returned_rows_eq, rowsToSessions_map_touch]
    obtain ⟨ss, hss, hlen⟩ := rowsToSessions_ok (roomRows room db) (fun r hr =>
      hdom r (List.mem_filter.mp hr).1 (by simpa using (List.mem_filter.mp hr).2))
    have hcond :
        ((touchRows room now db.rows).filter (fun r => r.room_id = room)).isEmpty ≠ true := by
      intro hcontra
      rw [returned_rows_eq] at hcontra
      simp at hcontra
      exact hempty hcontra
    have hval : findResult room now db = .ok ss := by
      unfold findResult
      rw [if_neg hcond, hconv, hss]
    refine ⟨hsnd, hsecond, ?_, fun _ => ⟨ss, ?_, hlen, hss⟩⟩
    · rw [hfst, hval]
      constructor
      · intro h
        exact absurd h (by simp)
      · intro h
        exact absurd h hempty
    · rw [hfst, hval]

/-- C9 witness: on a one-session room the read returns that session and the
row's `last_activity` is refreshed to the read time. -/
theorem C9_find_by_room_id_witness :
    (Session.find_by_room_id "987-654-321" 20 dbA).1 = .ok [sessA] ∧
    (∀ r ∈ (Session.find_by_room_id "987-654-321" 20 dbA).2.rows,
      r.room_id = "987-654-321" → r.last_activity = 20) := by
  have h := C9_find_by_room_id "987-654-321" 20 dbA (by
    intro r hr _
    have hr' : r = rowA := by simpa [dbA] using hr
    subst hr'
    rfl)
  refine ⟨?_, h.2.1⟩
  obtain ⟨ss, hss, _, hconv⟩ := h.2.2.2 (by decide)
  have hv : rowsToSessions (roomRows "987-654-321" dbA) = .ok [sessA] := rfl
  rw [hv] at hconv
  have h2 : ([sessA] : List Session) = ss := by injection hconv
  rw [hss, ← h2]

/-- `find?` by rowid commutes with a rowid-preserving map. -/
theorem find?_rowid_map (f : Row → Row) (hf : ∀ r, (f r).rowid = r.rowid)
    (l : List Row) (i : Nat) :
    (l.map f).find? (fun r => r.rowid = i) =
      (l.find? (fun r => r.rowid = i)).map f := by
  have hp : ((fun r : Row => decide (r.rowid = i)) ∘ f) =
      (fun r : Row => decide (r.rowid = i)) := by
    funext r
    simp [Function.comp, hf]
  rw [List.find?_map, hp]

/-- With pairwise-distinct rowids, `find?` by rowid on a filtered list
yields nothing or exactly the unfiltered result. -/
theorem find?_rowid_filter (l : List Row) (q : Row → Bool) (i : Nat)
    (hnd : (l.map Row.rowid).Nodup) :
    (l.filter q).find? (fun r => r.rowid = i) = none ∨
    (l.filter q).find? (fun r => r.rowid = i) = l.find? (fun r => r.rowid = i) := by
  induction l with
  | nil =>
    left
    rfl
  | cons a l ih =>
    have hnd2 : (∀ x ∈ l, ¬ x.rowid = a.rowid) ∧ (l.map Row.rowid).Nodup := by
      simpa using hnd
    by_cases hai : a.rowid = i
    · by_cases hqa : q a = true
      · right
        rw [List.filter_cons_of_pos hqa]
        rw [List.find?_cons_of_pos, List.find?_cons_of_pos]
        · simp [hai]
        · simp [hai]
      · left
        rw [List.filter_cons_of_neg hqa, List.find?_eq_none]
        intro r hr
        have hrl : r ∈ l := (List.mem_filter.mp hr).1
        simp only [decide_eq_true_eq]
        intro hri
        exact hnd2.1 r hrl (by rw [hri, hai])
    · have hih := ih hnd2.2
      by_cases hqa : q a = true
      · rw [List.filter_cons_of_pos hqa]
        rw [List.find?_cons_of_neg, List.find?_cons_of_neg]
        · exact hih
        · simp [hai]
        · simp [hai]
      · rw [List.filter_cons_of_neg hqa]
        rcases hih with h | h
        · left
          exact h
        · right
          rw [h, List.find?_cons_of_neg]
          simp [hai]

/-- One lifecycle step preserves well-formedness and never decreases the
fresh-id supply. -/
theorem wf_step {db db' : DBState} (h : Step db db') (hwf : WF db) :
    WF db' ∧ db.nextId ≤ db'.nextId := by
  obtain ⟨hbound, hnd⟩ := hwf
  cases h with
  | persist s now =>
    by_cases hc : db.rows.any (fun r => r.attr_id = s.attr_id) = true
    · have h2 : (s.persist now db).2 = db := by
        unfold Session.persist executeInsert
        rw [if_pos hc]
      rw [h2]
      exact ⟨⟨hbound, hnd⟩, Nat.le_refl _⟩
    · have h2 : (s.persist now db).2 =
          { rows := db.rows ++ [s.toRow now db.nextId], nextId := db.nextId + 1 } := by
        unfold Session.persist executeInsert
        rw [if_neg hc]
      rw [h2]
      refine ⟨⟨?_, ?_⟩, Nat.le_succ _⟩
      · intro r hr
        rcases List.mem_append.mp hr with hm | hm
        · exact Nat.lt_succ_of_lt (hbound r hm)
        · have hr' : r = s.toRow now db.nextId := by simpa using hm
          subst hr'
          simp [Session.toRow]
      · rw [List.map_append, List.nodup_append]
        refine ⟨hnd, by simp, ?_⟩
        intro x hx
        obtain ⟨r, hr, hxr⟩ := List.mem_map.mp hx
        have hlt : x < db.nextId := hxr ▸ hbound r hr
        simp only [List.map_cons, List.map_nil, List.mem_singleton, Session.toRow]
        omega
  | register aid blob now =>
    have hfid : ∀ r : Row, ((fun r : Row =>
        if regMatches aid r then { r with auth_result := some blob, last_activity := now }
        else r) r).rowid = r.rowid := by
      intro r
      by_cases hm : regMatches aid r = true <;> simp [hm]
    refine ⟨⟨?_, ?_⟩, Nat.le_refl _⟩
    · intro r hr
      obtain ⟨r₀, hr₀, hfr⟩ := List.mem_map.mp hr
      rw [← hfr, hfid r₀]
      exact hbound r₀ hr₀
    · show ((registerUpdate aid blob now db.rows).map Row.rowid).Nodup
      unfold registerUpdate
      rw [List.map_map]
      have : (Row.rowid ∘ fun r : Row =>
          if regMatches aid r then { r with auth_result := some blob, last_activity := now }
          else r) = Row.rowid := by
        funext r
        exact hfid r
      rw [this]
      exact hnd
  | find room now =>
    have hfid : ∀ r : Row, ((fun r : Row =>
        if r.room_id = room then { r with last_activity := now } else r) r).rowid =
        r.rowid := by
      intro r
      by_cases hm : r.room_id = room <;> simp [hm]
    refine ⟨⟨?_, ?_⟩, Nat.le_refl _⟩
    · intro r hr
      obtain ⟨r₀, hr₀, hfr⟩ := List.mem_map.mp hr
      rw [← hfr, hfid r₀]
      exact hbound r₀ hr₀
    · show ((touchRows room now db.rows).map Row.rowid).Nodup
      unfold touchRows
      rw [List.map_map]
      have : (Row.rowid ∘ fun r : Row =>
          if r.room_id = room then { r with last_activity := now } else r) = Row.rowid := by
        funext r
        exact hfid r
      rw [this]
      exact hnd
  | clean now =>
    refine ⟨⟨?_, ?_⟩, Nat.le_refl _⟩
    · intro r hr
      exact hbound r (List.mem_filter.mp hr).1
    · exact hnd.sublist (List.Sublist.map Row.rowid (List.filter_sublist _))

/-- One lifecycle step preserves the registered-result invariant: a
physical row holding `some v` keeps holding exactly `v` while it exists,
and an absent row id below the fresh supply stays absent. -/
theorem auth_step {db db' : DBState} (h : Step db db') (hwf : WF db) (i : Nat)
    (v : String)
    (hP : authAt db i = some (some v) ∨ (authAt db i = none ∧ i < db.nextId)) :
    authAt db' i = some (some v) ∨ (authAt db' i = none ∧ i < db'.nextId) := by
  obtain ⟨hbound, hnd⟩ := hwf
  cases h with
  | persist s now =>
    by_cases hc : db.rows.any (fun r => r.attr_id = s.attr_id) = true
    · have h2 : (s.persist now db).2 = db := by
        unfold Session.persist executeInsert
        rw [if_pos hc]
      rw [h2]
      exact hP
    · have h2 : (s.persist now db).2 =
          { rows := db.rows ++ [s.toRow now db.nextId], nextId := db.nextId + 1 } := by
        unfold Session.persist executeInsert
        rw [if_neg hc]
      rw [h2]
      have happ : authAt ({ rows := db.rows ++ [s.toRow now db.nextId], nextId := db.nextId + 1 } : DBState) i =
          ((db.rows.find? (fun r => r.rowid = i)).or
            ([s.toRow now db.nextId].find? (fun r => r.rowid = i))).map Row.auth_result := by
        unfold authAt
        rw [List.find?_append]
      rcases hP with hv | ⟨hn, hi⟩
      · left
        unfold authAt at hv
        cases hf : db.rows.find? (fun r => r.rowid = i) with
        | none =>
          rw [hf] at hv
          simp at hv
        | some r =>
          rw [hf] at hv
          rw [happ, hf]
          simpa using hv
      · right
        unfold authAt at hn
        cases hf : db.rows.find? (fun r => r.rowid = i) with
        | some r =>
          rw [hf] at hn
          simp at hn
        | none =>
          have hnew : [s.toRow now db.nextId].find? (fun r => r.rowid = i) = none := by
            rw [List.find?_eq_none]
            intro r hr
            have hr' : r = s.toRow now db.nextId := by simpa using hr
            subst hr'
            simp only [Session.toRow, decide_eq_true_eq]
            omega
          constructor
          · rw [happ, hf, hnew]
            rfl
          · exact Nat.lt_succ_of_lt hi
  | register aid blob now =>
    have hfid : ∀ r : Row, ((fun r : Row =>
        if regMatches aid r then { r with auth_result := some blob, last_activity := now }
        else r) r).rowid = r.rowid := by
      intro r
      by_cases hm : regMatches aid r = true <;> simp [hm]
    have hmap : authAt (Session.register_auth_result aid blob now db).2 i =
        ((db.rows.find? (fun r => r.rowid = i)).map (fun r : Row =>
          if regMatches aid r then { r with auth_result := some blob, last_activity := now }
          else r)).map Row.auth_result := by
      unfold authAt
      show ((registerUpdate aid blob now db.rows).find? (fun r => r.rowid = i)).map
          Row.auth_result = _
      unfold registerUpdate
      rw [find?_rowid_map _ hfid]
    rcases hP with hv | ⟨hn, hi⟩
    · left
      unfold authAt at hv
      cases hf : db.rows.find? (fun r => r.rowid = i) with
      | none =>
        rw [hf] at hv
        simp at hv
      | some r =>
        rw [hf] at hv
        have hvr : r.auth_result = some v := by simpa using hv
        have hnm : regMatches aid r = false := by
          simp [regMatches, hvr]
        rw [hmap, hf]
        simp [hnm, hvr]
    · right
      unfold authAt at hn
      cases hf : db.rows.find? (fun r => r.rowid = i) with
      | some r =>
        rw [hf] at hn
        simp at hn
      | none =>
        refine ⟨?_, hi⟩
        rw [hmap, hf]
        rfl
  | find room now =>
    have hfid : ∀ r : Row, ((fun r : Row =>
        if r.room_id = room then { r with last_activity := now } else r) r).rowid =
        r.rowid := by
      intro r
      by_cases hm : r.room_id = room <;> simp [hm]
    have hauth : ∀ r : Row, ((fun r : Row =>
        if r.room_id = room then { r with last_activity := now } else r) r).auth_result =
        r.auth_result := by
      intro r
      by_cases hm : r.room_id = room <;> simp [hm]
    have hmap : authAt (Session.find_by_room_id room now db).2 i =
        ((db.rows.find? (fun r => r.rowid = i)).map (fun r : Row =>
          if r.room_id = room then { r with last_activity := now } else r)).map
          Row.auth_result := by
      unfold authAt
      show ((touchRows room now db.rows).find? (fun r => r.rowid = i)).map
          Row.auth_result = _
      unfold touchRows
      rw [find?_rowid_map _ hfid]
    rcases hP with hv | ⟨hn, hi⟩
    · left
      unfold authAt at hv
      cases hf : db.rows.find? (fun r => r.rowid = i) with
      | none =>
        rw [hf] at hv
        simp at hv
      | some r =>
        rw [hf] at hv
        rw [hmap, hf]
        simp only [Option.map_some']
        rw [hauth r]
        simpa using hv
    · right
      unfold authAt at hn
      cases hf : db.rows.find? (fun r => r.rowid = i) with
      | some r =>
        rw [hf] at hn
        simp at hn
      | none =>
        refine ⟨?_, hi⟩
        rw [hmap, hf]
        rfl
  | clean now =>
    have hfil := find?_rowid_filter db.rows
      (fun r => ¬ (r.last_activity + 3600 < now)) i hnd
    rcases hP with hv | ⟨hn, hi⟩
    · unfold authAt at hv
      cases hf : db.rows.find? (fun r => r.rowid = i) with
      | none =>
        rw [hf] at hv
        simp at hv
      | some r =>
        rw [hf] at hv
        have hmem : r ∈ db.rows := List.mem_of_find?_eq_some hf
        have hri : r.rowid = i := by simpa using List.find?_some hf
        have hilt : i < db.nextId := hri ▸ hbound r hmem
        rcases hfil with hnone | hsame
        · right
          refine ⟨?_, hilt⟩
          unfold authAt clean_db
          rw [hnone]
          rfl
        · left
          unfold authAt clean_db
          rw [hsame, hf]
          exact hv
    · right
      unfold authAt at hn
      refine ⟨?_, hi⟩
      rcases hfil with hnone | hsame
      · unfold authAt clean_db
        rw [hnone]
        rfl
      · unfold authAt clean_db
        rw [hsame]
        cases hf : db.rows.find? (fun r => r.rowid = i) with
        | none => rfl
        | some r =>
          rw [hf] at hn
          simp at hn

/-- C2: `auth_result` is write-once monotonic.  A session is created with
`auth_result = None`, and under any sequence of `persist`,
`register_auth_result`, `find_by_room_id` and `clean_db` steps, a table
row observed holding a result `v` either still holds exactly `v` or has
been deleted — it never reverts to null and never changes value. -/
theorem C2_auth_result_monotonic (gt : GuestToken) (aid pur : String)
    (db db' : DBState) (i : Nat) (v : String)
    (hwf : WF db) (hsteps : Relation.ReflTransGen Step db db')
    (hv : authAt db i = some (some v)) :
    (Session.new gt aid pur).auth_result = none ∧
    (authAt db' i = some (some v) ∨ authAt db' i = none) := by
  refine ⟨rfl, ?_⟩
  suffices h : WF db' ∧
      (authAt db' i = some (some v) ∨ (authAt db' i = none ∧ i < db'.nextId)) by
    rcases h.2 with h2 | h2
    · exact .inl h2
    · exact .inr h2.1
  induction hsteps with
  | refl => exact ⟨hwf, .inl hv⟩
  | tail _hpre hstep ih =>
    obtain ⟨hwf2, hP⟩ := ih
    exact ⟨(wf_step hstep hwf2).1, auth_step hstep hwf2 _ _ hP⟩

/-- C2 witness: starting from a table whose single row (physical id 0)
holds the result "res", one `clean_db` step at a time within the
retention window leaves that row holding exactly "res". -/
theorem C2_auth_result_monotonic_witness :
    (Session.new gtA "a" "p").auth_result = none ∧
    (authAt (clean_db 1000 dbReg) 0 = some (some "res") ∨
      authAt (clean_db 1000 dbReg) 0 = none) :=
  C2_auth_result_monotonic gtA "a" "p" dbReg (clean_db 1000 dbReg) 0 "res"
    (by constructor
        · intro r hr
          have hr' : r = rowReg := by simpa [dbReg] using hr
          subst hr'
          decide
        · decide)
    (Relation.ReflTransGen.single (Step.clean 1000 dbReg))
    (by rfl)

end CommCommon
